/-
  Verification development for the room/session manager of a real-time
  two-player chess server (socket.io based).  The definitions below are a
  shallow embedding of the server's handler code: the `Room` record and the
  timer helpers (`deductElapsedTime`, `startClock`, `clearClock`) follow the
  source functions of the same names, and each `handle...` function is a
  transliteration of the corresponding `socket.on(...)` handler.  External
  effects (socket emits, database writes, `setTimeout`) are made explicit:
  emits and `recordGame` calls become `Event` values, and the JS timer table
  becomes a `TimerSys` record tracking which single-shot timers are live.
  chess.js is modelled as an opaque `Engine` parameter.
-/
import Mathlib

namespace ChessServer

/-- Side / piece colour, chess.js style: `"w"` or `"b"`. -/
inductive Color where
  | w
  | b
  deriving DecidableEq, Repr

/-- The opposite colour. -/
def Color.other : Color → Color
  | .w => .b
  | .b => .w

/-- Room lifecycle status: `"waiting" | "playing" | "finished"`. -/
inductive Status where
  | waiting
  | playing
  | finished
  deriving DecidableEq, Repr

/-- Result of a finished game as passed to `recordGame`. -/
inductive GameResult where
  | white
  | black
  | draw
  deriving DecidableEq, Repr

/-- A seated player, as stored in `room.players`. -/
structure Player where
  socketId : Nat
  color : Color
  connected : Bool
  userId : Option Nat
  username : String
  deriving DecidableEq, Repr

/-- The chess.js game object, as far as the session manager observes it:
whose turn it is, the FEN string, and the move history (SAN list). -/
structure Game where
  turn : Color
  fen : String
  history : List String
  deriving DecidableEq, Repr

/-- A move payload: `{ from, to, promotion }`. -/
structure MoveCmd where
  src : String
  dst : String
  promotion : Option String
  deriving DecidableEq, Repr

/-- What `game.move(...)` returns on a legal move, together with the flags
the handler queries on the updated game (`isCheckmate()` etc.). -/
structure MoveOutcome where
  game : Game
  san : String
  mvFrom : String
  mvTo : String
  isCheck : Bool
  isCheckmate : Bool
  isStalemate : Bool
  isDraw : Bool
  deriving DecidableEq, Repr

/-- The rules engine (chess.js `game.move`): `none` models a throw or a
`null` return (illegal move), `some` a legal move with the updated game. -/
def Engine : Type := Game → MoveCmd → Option MoveOutcome

/-- One room of the `rooms` map. -/
structure Room where
  id : String
  players : List Player
  game : Game
  status : Status
  createdAt : Int
  timeControl : Option Int
  timeWhite : Int
  timeBlack : Int
  lastMoveTimestamp : Int
  timerRef : Option Nat
  reconnectTimers : List (Nat × Nat)
  deriving DecidableEq, Repr

/-- The host's timer table.  `setTimeout` allocates a fresh id and adds it to
the live set; `clearTimeout` removes it.  Clock timers and the 30-second
disconnect (abandon) timers are kept in separate live lists so that claims
about "clock timers" can be stated directly; ids are drawn from one counter,
so an id belongs to at most one list. -/
structure TimerSys where
  nextId : Nat
  liveClock : List Nat
  liveAbandon : List Nat
  deriving DecidableEq, Repr

/-- Models `clearTimeout t`. -/
def TimerSys.clear (sys : TimerSys) (t : Nat) : TimerSys :=
  { sys with
    liveClock := sys.liveClock.filter (fun x => x ≠ t)
    liveAbandon := sys.liveAbandon.filter (fun x => x ≠ t) }

/-- Models `setTimeout` arming a clock timeout: returns the new handle. -/
def TimerSys.armClock (sys : TimerSys) : Nat × TimerSys :=
  (sys.nextId,
   { sys with nextId := sys.nextId + 1, liveClock := sys.nextId :: sys.liveClock })

/-- Models `setTimeout` arming a 30-second disconnect deadline. -/
def TimerSys.armAbandon (sys : TimerSys) : Nat × TimerSys :=
  (sys.nextId,
   { sys with nextId := sys.nextId + 1, liveAbandon := sys.nextId :: sys.liveAbandon })

/-- Outbound socket emits and persistence calls made by the handlers. -/
inductive Event where
  | joinError (reason : String)
  | gameStart (toSocket : Nat) (color : Color)
  | invalidMove (reason : String)
  | engineCalled (mv : MoveCmd)
  | moveMade (san : String) (turn : Color)
  | timeout (loser : Color) (winner : Color)
  | resigned (loser : Color) (winner : Color)
  | drawOffered (toSocket : Nat)
  | drawAccepted
  | drawDeclined (toSocket : Nat)
  | opponentOffline (color : Color)
  | playerDisconnected (color : Color)
  | chatMessage (text : String) (fromColor : Color)
  | record (result : GameResult) (reason : String)
  deriving DecidableEq, Repr

/-- Source `deductElapsedTime(room, color)`: subtract wall-clock time elapsed since
`lastMoveTimestamp` from the given colour's remaining time, floored at 0
(`Math.max(0, ...)`); a no-op when the room has no time control or no move
timestamp yet. -/
def deductElapsedTime (room : Room) (color : Color) (now : Int) : Room :=
  if room.timeControl = none ∨ room.lastMoveTimestamp = 0 then room
  else
    let elapsed := now - room.lastMoveTimestamp
    match color with
    | .w => { room with timeWhite := max 0 (room.timeWhite - elapsed) }
    | .b => { room with timeBlack := max 0 (room.timeBlack - elapsed) }

/-- Models `if (room.timerRef) clearTimeout(room.timerRef)` — the cancel-previous
step `startClock` always performs first. -/
def cancelRef (room : Room) (sys : TimerSys) : TimerSys :=
  match room.timerRef with
  | some t => sys.clear t
  | none => sys

/-- Source `startClock(room)`: cancel any previously armed timer, then (only if the
room has a time control and is playing) arm a fresh single-shot timeout for
the side to move and stamp `lastMoveTimestamp`.  Note the source does not
null `timerRef` on the early-return path; this is kept faithfully. -/
def startClock (room : Room) (sys : TimerSys) (now : Int) : Room × TimerSys :=
  let sys1 := cancelRef room sys
  if room.timeControl = none ∨ room.status ≠ Status.playing then (room, sys1)
  else
    let p := sys1.armClock
    ({ room with lastMoveTimestamp := now, timerRef := some p.1 }, p.2)

/-- Source `clearClock(room)`: cancel the armed timer, if any, and null the ref. -/
def clearClock (room : Room) (sys : TimerSys) : Room × TimerSys :=
  match room.timerRef with
  | some t => ({ room with timerRef := none }, sys.clear t)
  | none => (room, sys)

/-- The body of the `setTimeout` callback armed by `startClock`: fires the
timeout for the turn colour captured at arming time.  It re-checks `status`
before mutating. -/
def fireClockTimeout (capturedTurn : Color) (room : Room) : Room × List Event :=
  if room.status ≠ Status.playing then (room, [])
  else
    let room1 :=
      match capturedTurn with
      | Color.w => { room with status := Status.finished, timeWhite := 0 }
      | Color.b => { room with status := Status.finished, timeBlack := 0 }
    let winner := if capturedTurn = Color.w then GameResult.black else GameResult.white
    (room1, [Event.timeout capturedTurn capturedTurn.other, Event.record winner "timeout"])

/-- The body of the 30-second disconnect deadline callback: re-checks
`status`; if still playing, finishes the game as abandoned (crediting the
opponent of the disconnected colour) and deletes the room (`none`). -/
def fireAbandonDeadline (disColor : Color) (room : Room) : Option Room × List Event :=
  if room.status ≠ Status.playing then (some room, [])
  else
    let winner := if disColor = Color.w then GameResult.black else GameResult.white
    (none, [Event.playerDisconnected disColor, Event.record winner "abandoned"])

/-- An authenticated socket user (`socket.data.user`), or `none` for guests. -/
structure User where
  id : Nat
  username : String
  deriving DecidableEq, Repr

/-- chess.js starting position as the session manager sees it. -/
def newChessGame : Game :=
  { turn := Color.w
    fen := "rnbqkbnr/pppppppp/8/8/8/8/PPPPPPPP/RNBQKBNR w KQkq - 0 1"
    history := [] }

/-- The `create-room` handler: builds the fresh `Room` record stored into the
`rooms` map (the id having been produced by `generateRoomId`). -/
def handleCreateRoom (user : Option User) (now : Int) (sender : Nat)
    (roomId : String) (timeControl : Option Int) : Room :=
  let initialMs := match timeControl with
    | some tc => tc * 1000
    | none => 0
  { id := roomId
    players := [{ socketId := sender, color := Color.w, connected := true,
                  userId := user.map User.id,
                  username := (user.map User.username).getD "Guest" }]
    game := newChessGame
    status := Status.waiting
    createdAt := now
    timeControl := timeControl
    timeWhite := initialMs
    timeBlack := initialMs
    lastMoveTimestamp := 0
    timerRef := none
    reconnectTimers := [] }

/-- The player record the `join-room` handler pushes for the joiner. -/
def joinerOf (user : Option User) (sender : Nat) : Player :=
  { socketId := sender, color := Color.b, connected := true,
    userId := user.map User.id,
    username := (user.map User.username).getD "Guest" }

/-- The `join-room` handler: fails when the room is missing or not waiting;
otherwise seats the joiner as black, flips the room to playing, emits a
`game-start` to each seat, and starts the clock. -/
def handleJoinRoom (user : Option User) (now : Int) (sender : Nat)
    (room? : Option Room) (sys : TimerSys) : Option Room × TimerSys × List Event :=
  match room? with
  | none => (none, sys, [Event.joinError "Room not found."])
  | some room =>
    if room.status ≠ Status.waiting then
      (some room, sys, [Event.joinError "Room is full or game already started."])
    else
      let room1 := { room with
        players := room.players ++ [joinerOf user sender]
        status := Status.playing }
      let evts := room1.players.map (fun p => Event.gameStart p.socketId p.color)
      let rs := startClock room1 sys now
      (some rs.1, rs.2, evts)

/-- The `make-move` handler.  `Event.engineCalled` marks the point where the
candidate move is handed to chess.js (`room.game.move(...)`). -/
def handleMakeMove (engine : Engine) (now : Int) (sender : Nat) (mv : MoveCmd)
    (room? : Option Room) (sys : TimerSys) : Option Room × TimerSys × List Event :=
  match room? with
  | none => (none, sys, [Event.invalidMove "Game is not active."])
  | some room =>
    if room.status ≠ Status.playing then
      (some room, sys, [Event.invalidMove "Game is not active."])
    else
      match room.players.find? (fun p => p.socketId == sender) with
      | none => (some room, sys, [Event.invalidMove "You are not in this room."])
      | some player =>
        if room.game.turn ≠ player.color then
          (some room, sys, [Event.invalidMove "Not your turn."])
        else
          let room1 := deductElapsedTime room player.color now
          let rc := clearClock room1 sys
          let mv1 : MoveCmd := { mv with promotion := some (mv.promotion.getD "q") }
          match engine rc.1.game mv1 with
          | none =>
            let rs := startClock rc.1 rc.2 now
            (some rs.1, rs.2, [Event.engineCalled mv1, Event.invalidMove "Illegal move."])
          | some outcome =>
            let room2 := { rc.1 with game := outcome.game }
            if outcome.isCheckmate || outcome.isStalemate || outcome.isDraw then
              let room3 := { room2 with status := Status.finished }
              let recEvt :=
                if outcome.isCheckmate then
                  [Event.record
                    (if outcome.game.turn = Color.w then GameResult.black else GameResult.white)
                    "checkmate"]
                else if outcome.isStalemate then [Event.record GameResult.draw "stalemate"]
                else [Event.record GameResult.draw "draw"]
              (some room3, rc.2,
                Event.engineCalled mv1 :: recEvt ++ [Event.moveMade outcome.san outcome.game.turn])
            else
              let rs := startClock room2 rc.2 now
              (some rs.1, rs.2,
                [Event.engineCalled mv1, Event.moveMade outcome.san outcome.game.turn])

/-- The `leave-room` handler: deletes the room, but only while waiting. -/
def handleLeaveRoom (room? : Option Room) (sys : TimerSys) :
    Option Room × TimerSys × List Event :=
  match room? with
  | none => (none, sys, [])
  | some room =>
    if room.status ≠ Status.waiting then (some room, sys, [])
    else (none, sys, [])

/-- The `resign` handler. -/
def handleResign (sender : Nat) (room? : Option Room) (sys : TimerSys) :
    Option Room × TimerSys × List Event :=
  match room? with
  | none => (none, sys, [])
  | some room =>
    if room.status ≠ Status.playing then (some room, sys, [])
    else
      match room.players.find? (fun p => p.socketId == sender) with
      | none => (some room, sys, [])
      | some player =>
        let rc := clearClock room sys
        let winner := if player.color = Color.w then GameResult.black else GameResult.white
        (some { rc.1 with status := Status.finished }, rc.2,
          [Event.resigned player.color player.color.other, Event.record winner "resign"])

/-- The `draw-offer` handler: note it records no pending-offer state on the
room; it only notifies the connected opponent. -/
def handleDrawOffer (sender : Nat) (room? : Option Room) (sys : TimerSys) :
    Option Room × TimerSys × List Event :=
  match room? with
  | none => (none, sys, [])
  | some room =>
    if room.status ≠ Status.playing then (some room, sys, [])
    else
      match room.players.find? (fun p => p.socketId == sender) with
      | none => (some room, sys, [])
      | some _ =>
        match room.players.find? (fun p => p.socketId != sender) with
        | some opp =>
          if opp.connected then (some room, sys, [Event.drawOffered opp.socketId])
          else (some room, sys, [])
        | none => (some room, sys, [])

/-- The `draw-response` handler: on `accept` it finishes the room as an
agreed draw (no check that the sender is seated, and no pending-offer
check); on decline it only notifies the other seat. -/
def handleDrawResponse (sender : Nat) (accept : Bool) (room? : Option Room)
    (sys : TimerSys) : Option Room × TimerSys × List Event :=
  match room? with
  | none => (none, sys, [])
  | some room =>
    if room.status ≠ Status.playing then (some room, sys, [])
    else if accept then
      let rc := clearClock room sys
      (some { rc.1 with status := Status.finished }, rc.2,
        [Event.drawAccepted, Event.record GameResult.draw "agreement"])
    else
      match room.players.find? (fun p => p.socketId != sender) with
      | some offerer =>
        if offerer.connected then (some room, sys, [Event.drawDeclined offerer.socketId])
        else (some room, sys, [])
      | none => (some room, sys, [])

/-- The `chat-message` handler. -/
def handleChatMessage (sender : Nat) (text : String) (room? : Option Room)
    (sys : TimerSys) : Option Room × TimerSys × List Event :=
  match room? with
  | none => (none, sys, [])
  | some room =>
    if room.status ≠ Status.playing then (some room, sys, [])
    else
      match room.players.find? (fun p => p.socketId == sender) with
      | none => (some room, sys, [])
      | some player =>
        let safe := text.trim.take 200
        if safe = "" then (some room, sys, [])
        else (some room, sys, [Event.chatMessage safe player.color])

/-- The `disconnect` handler, restricted to the room that seats the
disconnecting socket (the source loops over the rooms map and `break`s at
the first hit).  `none` in the first component means the room was deleted
from the map. -/
def handleDisconnect (sender : Nat) (room? : Option Room) (sys : TimerSys) :
    Option Room × TimerSys × List Event :=
  match room? with
  | none => (none, sys, [])
  | some room =>
    match room.players.find? (fun p => p.socketId == sender) with
    | none => (some room, sys, [])
    | some disconnected =>
      let rc := clearClock room sys
      let room1 := { rc.1 with
        players := rc.1.players.map
          (fun q => if q.socketId == sender then { q with connected := false } else q) }
      if (room1.players.filter (fun p => p.socketId != sender)).isEmpty
          || (room1.status != Status.playing) then
        (none, rc.2, [])
      else
        let pa := rc.2.armAbandon
        let room2 := match disconnected.userId with
          | some u => { room1 with
              reconnectTimers := (u, pa.1) :: room1.reconnectTimers.filter (fun e => e.1 ≠ u) }
          | none => room1
        (some room2, pa.2, [Event.opponentOffline disconnected.color])

/-- One inbound message (or timer callback firing) for a given room. -/
inductive Msg where
  | makeMove (sender : Nat) (mv : MoveCmd)
  | resign (sender : Nat)
  | drawOffer (sender : Nat)
  | drawResponse (sender : Nat) (accept : Bool)
  | chatMessage (sender : Nat) (text : String)
  | leaveRoom (sender : Nat)
  | disconnect (sender : Nat)
  | clockTimeoutFire (capturedTurn : Color)
  | abandonDeadlineFire (disColor : Color)
  deriving DecidableEq, Repr

/-- Dispatch of a message to the corresponding handler. -/
def handleMsg (engine : Engine) (now : Int) (msg : Msg) (room : Room)
    (sys : TimerSys) : Option Room × TimerSys × List Event :=
  match msg with
  | .makeMove s mv => handleMakeMove engine now s mv (some room) sys
  | .resign s => handleResign s (some room) sys
  | .drawOffer s => handleDrawOffer s (some room) sys
  | .drawResponse s a => handleDrawResponse s a (some room) sys
  | .chatMessage s t => handleChatMessage s t (some room) sys
  | .leaveRoom _ => handleLeaveRoom (some room) sys
  | .disconnect s => handleDisconnect s (some room) sys
  | .clockTimeoutFire c =>
      let p := fireClockTimeout c room
      (some p.1, sys, p.2)
  | .abandonDeadlineFire c =>
      let p := fireAbandonDeadline c room
      (p.1, sys, p.2)

/-- Source `generateRoomId`, made total with a fuel parameter.  The source is the
unbounded retry loop
`do { id = "SALA-" + random3hex() } while (rooms.has(id)); return id;`
with no failure outcome.  `stream k` is the id produced by the k-th call of
the random generator, `taken` the key set of the `rooms` map; `none` means
the loop has not found a free id within `fuel` iterations (i.e. the real
loop is still running). -/
def generateRoomIdFuel (fuel : Nat) (stream : Nat → String) (taken : List String)
    (k : Nat) : Option String :=
  match fuel with
  | 0 => none
  | Nat.succ f =>
    if taken.contains (stream k) then generateRoomIdFuel f stream taken (k + 1)
    else some (stream k)

/-- Formalisation of the claimed behaviour of id generation (spec wording):
some global attempt bound B exists such that, whatever ids are already
taken and whatever the randomness yields, generation reaches an outcome
within B attempts.  The source loop's only outcome is a found id, so
reaching an outcome within B attempts says `generateRoomIdFuel B`
succeeds. -/
def boundedIdGeneration : Prop :=
  ∃ B : Nat, ∀ (stream : Nat → String) (taken : List String),
    (generateRoomIdFuel B stream taken 0).isSome = true

/-- The mover's remaining time, `remaining[color]`. -/
def remainingOf (room : Room) (c : Color) : Int :=
  match c with
  | .w => room.timeWhite
  | .b => room.timeBlack

section HelperLemmas

variable (room : Room) (sys : TimerSys) (c : Color) (now : Int)

@[simp] theorem deductElapsedTime_game : (deductElapsedTime room c now).game = room.game := by
  unfold deductElapsedTime
  split
  · rfl
  · cases c <;> rfl

@[simp] theorem deductElapsedTime_status : (deductElapsedTime room c now).status = room.status := by
  unfold deductElapsedTime
  split
  · rfl
  · cases c <;> rfl

@[simp] theorem deductElapsedTime_players : (deductElapsedTime room c now).players = room.players := by
  unfold deductElapsedTime
  split
  · rfl
  · cases c <;> rfl

@[simp] theorem deductElapsedTime_timerRef : (deductElapsedTime room c now).timerRef = room.timerRef := by
  unfold deductElapsedTime
  split
  · rfl
  · cases c <;> rfl

@[simp] theorem deductElapsedTime_timeControl :
    (deductElapsedTime room c now).timeControl = room.timeControl := by
  unfold deductElapsedTime
  split
  · rfl
  · cases c <;> rfl

@[simp] theorem clearClock_fst_game : (clearClock room sys).1.game = room.game := by
  unfold clearClock
  cases room.timerRef <;> rfl

@[simp] theorem clearClock_fst_status : (clearClock room sys).1.status = room.status := by
  unfold clearClock
  cases room.timerRef <;> rfl

@[simp] theorem clearClock_fst_players : (clearClock room sys).1.players = room.players := by
  unfold clearClock
  cases room.timerRef <;> rfl

@[simp] theorem clearClock_fst_timeControl :
    (clearClock room sys).1.timeControl = room.timeControl := by
  unfold clearClock
  cases room.timerRef <;> rfl

@[simp] theorem clearClock_fst_reconnectTimers :
    (clearClock room sys).1.reconnectTimers = room.reconnectTimers := by
  unfold clearClock
  cases room.timerRef <;> rfl

@[simp] theorem clearClock_fst_timerRef : (clearClock room sys).1.timerRef = none := by
  unfold clearClock
  cases h : room.timerRef <;> simp [h]

@[simp] theorem startClock_fst_game : (startClock room sys now).1.game = room.game := by
  unfold startClock
  split <;> rfl

@[simp] theorem startClock_fst_status : (startClock room sys now).1.status = room.status := by
  unfold startClock
  split <;> rfl

@[simp] theorem startClock_fst_players : (startClock room sys now).1.players = room.players := by
  unfold startClock
  split <;> rfl

@[simp] theorem startClock_fst_timeControl :
    (startClock room sys now).1.timeControl = room.timeControl := by
  unfold startClock
  split <;> rfl

end HelperLemmas

/-- A deterministic stand-in for chess.js used to evaluate the handlers on
concrete inputs: it accepts every move as legal and non-terminal, appending
"e4" to the history. -/
def testEngine : Engine := fun g mv =>
  some { game := { turn := g.turn.other, fen := "after", history := g.history ++ ["e4"] }
         san := "e4", mvFrom := mv.src, mvTo := mv.dst
         isCheck := false, isCheckmate := false, isStalemate := false, isDraw := false }

/-- Concrete seated players and rooms used to evaluate the theorems. -/
def alice : Player :=
  { socketId := 1, color := Color.w, connected := true, userId := some 10, username := "alice" }

def bob : Player :=
  { socketId := 2, color := Color.b, connected := true, userId := some 20, username := "bob" }

def guestPlayer : Player :=
  { socketId := 1, color := Color.w, connected := true, userId := none, username := "Guest" }

/-- A playing room with a 60-second time control where white has 500 ms
left and the last move was stamped at t = 1000 ms; clock timer 0 is armed. -/
def basePlayingRoom : Room :=
  { id := "SALA-AAA"
    players := [alice, bob]
    game := { turn := Color.w, fen := "startpos", history := [] }
    status := Status.playing
    createdAt := 0
    timeControl := some 60
    timeWhite := 500
    timeBlack := 60000
    lastMoveTimestamp := 1000
    timerRef := some 0
    reconnectTimers := [] }

def sysOneClock : TimerSys := { nextId := 1, liveClock := [0], liveAbandon := [] }

def sysEmpty : TimerSys := { nextId := 0, liveClock := [], liveAbandon := [] }

def mv0 : MoveCmd := { src := "e2", dst := "e4", promotion := none }

/-- Value of `mv0` after the handler's `promotion ?? "q"` defaulting. -/
def mv0q : MoveCmd := { mv0 with promotion := some "q" }

/-- The outcome `testEngine` produces for `mv0q` on `basePlayingRoom.game`. -/
def outcome0 : MoveOutcome :=
  { game := { turn := Color.b, fen := "after", history := ["e4"] }
    san := "e4", mvFrom := "e2", mvTo := "e4"
    isCheck := false, isCheckmate := false, isStalemate := false, isDraw := false }

/-- C1 counterexample.  In `basePlayingRoom` white has 500 ms left and
1000 ms of wall-clock time have elapsed, so the deduct-on-move step
exhausts the mover's clock (`timeWhite` becomes 0).  The claim says the
room must then finish as a timeout with the move discarded; instead the
handler forwards the move to the rules engine, appends it to the move log,
and leaves the room playing — there is no exhaustion check in the code. -/
theorem makeMove_missing_timeout_check_cx :
    (deductElapsedTime basePlayingRoom Color.w 2000).timeWhite = 0 ∧
    (handleMakeMove testEngine 2000 1 mv0 (some basePlayingRoom) sysOneClock).1.map Room.status
      = some Status.playing ∧
    (handleMakeMove testEngine 2000 1 mv0 (some basePlayingRoom) sysOneClock).1.map
        (fun r => r.game.history) = some ["e4"] ∧
    Event.engineCalled mv0q
      ∈ (handleMakeMove testEngine 2000 1 mv0 (some basePlayingRoom) sysOneClock).2.2 := by
  decide

/-- C1 (amended).  The deduct-on-move step floors the mover's remaining
time at 0, but the make-move handler performs no exhaustion check: even
when the deduction leaves the mover with 0 ms, the move is still handed to
the rules engine and, when legal and non-terminal, the updated game (with
the move appended to its history) is installed and the room stays
`playing`.  A timeout is produced only by the armed clock timer's callback
firing. -/
theorem makeMove_forwards_move_even_when_clock_exhausted
    (engine : Engine) (now : Int) (sender : Nat) (mv : MoveCmd) (room : Room)
    (sys : TimerSys) (player : Player) (outcome : MoveOutcome)
    (hstatus : room.status = Status.playing)
    (hfind : room.players.find? (fun p => p.socketId == sender) = some player)
    (hturn : room.game.turn = player.color)
    (hexh : remainingOf (deductElapsedTime room player.color now) player.color = 0)
    (heng : engine room.game { mv with promotion := some (mv.promotion.getD "q") } = some outcome)
    (hcm : outcome.isCheckmate = false) (hsm : outcome.isStalemate = false)
    (hdr : outcome.isDraw = false) :
    Event.engineCalled { mv with promotion := some (mv.promotion.getD "q") }
        ∈ (handleMakeMove engine now sender mv (some room) sys).2.2 ∧
    (handleMakeMove engine now sender mv (some room) sys).1.map Room.status
      = some Status.playing ∧
    (handleMakeMove engine now sender mv (some room) sys).1.map (fun r => r.game)
      = some outcome.game := by
  simp [handleMakeMove, hstatus, hfind, hturn, heng, hcm, hsm, hdr]

/-- Witness for the amended C1 theorem at the concrete inputs of the
counterexample. -/
theorem makeMove_forwards_move_even_when_clock_exhausted_witness :
    Event.engineCalled { mv0 with promotion := some (mv0.promotion.getD "q") }
        ∈ (handleMakeMove testEngine 2000 1 mv0 (some basePlayingRoom) sysOneClock).2.2 ∧
    (handleMakeMove testEngine 2000 1 mv0 (some basePlayingRoom) sysOneClock).1.map Room.status
      = some Status.playing ∧
    (handleMakeMove testEngine 2000 1 mv0 (some basePlayingRoom) sysOneClock).1.map
        (fun r => r.game) = some outcome0.game :=
  makeMove_forwards_move_even_when_clock_exhausted testEngine 2000 1 mv0 basePlayingRoom
    sysOneClock alice outcome0 (by decide) (by decide) (by decide) (by decide) (by decide)
    (by decide) (by decide) (by decide)

@[simp] theorem TimerSys.armAbandon_snd_liveClock (sys : TimerSys) :
    sys.armAbandon.2.liveClock = sys.liveClock := rfl

theorem TimerSys.not_mem_clear_liveClock (sys : TimerSys) (t : Nat) :
    t ∉ (sys.clear t).liveClock := by
  simp [TimerSys.clear]

/-- C2 counterexample.  In `basePlayingRoom` clock timer 0 is armed and
live.  The claim says a disconnect of a seated player leaves the clock
running; instead the handler's first action is `clearClock(room)`: after
the disconnect no clock timer is live and `timerRef` is null, so the
absent player cannot lose on time (only by the 30-second abandon
deadline). -/
theorem disconnect_clock_not_left_running_cx :
    basePlayingRoom.timerRef = some 0 ∧ sysOneClock.liveClock = [0] ∧
    (handleDisconnect 1 (some basePlayingRoom) sysOneClock).2.1.liveClock = [] ∧
    (handleDisconnect 1 (some basePlayingRoom) sysOneClock).1.map Room.timerRef = some none ∧
    (handleDisconnect 1 (some basePlayingRoom) sysOneClock).1.map
      (fun r => r.players.map Player.connected) = some [false, true] := by
  decide

/-- C2 (amended).  On a transport disconnect of a seated player while
the room is playing (with an opponent still seated), the handler marks
that player `connected = false` — but it also stops the clock: the armed
clock timer is cancelled (`clearClock`) and `timerRef` nulled, so the
countdown is paused during the absence; the room stays playing and the
abandonment deadline, not a timeout, is what can end it. -/
theorem disconnect_marks_offline_and_stops_clock
    (sender : Nat) (room : Room) (sys : TimerSys) (p : Player) (t : Nat)
    (hfind : room.players.find? (fun q => q.socketId == sender) = some p)
    (hstatus : room.status = Status.playing)
    (href : room.timerRef = some t)
    (hothers : ∃ q ∈ room.players, q.socketId ≠ sender) :
    ∃ r, (handleDisconnect sender (some room) sys).1 = some r ∧
      r.timerRef = none ∧
      r.status = Status.playing ∧
      r.players = room.players.map
        (fun q => if q.socketId == sender then { q with connected := false } else q) ∧
      t ∉ (handleDisconnect sender (some room) sys).2.1.liveClock := by
  obtain ⟨q, hq, hqs⟩ := hothers
  have hnall : ¬ ∀ a ∈ room.players,
      (if a.socketId = sender then ({ a with connected := false } : Player) else a).socketId
        = sender := by
    intro hall
    have hx := hall q hq
    rw [if_neg hqs] at hx
    exact hqs hx
  simp only [handleDisconnect, hfind]
  simp [clearClock, href, hstatus]
  cases hp : p.userId <;> simp only [hp] <;> rw [if_neg hnall] <;>
    exact ⟨_, rfl, rfl, rfl, rfl, TimerSys.not_mem_clear_liveClock sys t⟩

/-- Witness for the amended C2 theorem at the counterexample's inputs. -/
theorem disconnect_marks_offline_and_stops_clock_witness :
    ∃ r, (handleDisconnect 1 (some basePlayingRoom) sysOneClock).1 = some r ∧
      r.timerRef = none ∧
      r.status = Status.playing ∧
      r.players = basePlayingRoom.players.map
        (fun q => if q.socketId == 1 then { q with connected := false } else q) ∧
      0 ∉ (handleDisconnect 1 (some basePlayingRoom) sysOneClock).2.1.liveClock :=
  disconnect_marks_offline_and_stops_clock 1 basePlayingRoom sysOneClock alice 0
    (by decide) (by decide) (by decide) (by decide)

/-- C3 counterexample.  The code stores no pending-draw-offer state at
all, so `basePlayingRoom` is a Playing room "with no draw offer pending";
the claim says any draw-response then leaves the room unchanged, yet
`accept = true` finishes it as an agreed draw. -/
theorem drawResponse_accept_without_offer_finishes_cx :
    (handleDrawResponse 2 true (some basePlayingRoom) sysOneClock).1.map Room.status
      = some Status.finished ∧
    Event.record GameResult.draw "agreement"
      ∈ (handleDrawResponse 2 true (some basePlayingRoom) sysOneClock).2.2 := by
  decide

/-- C3 (amended).  A draw-response with `accept = false` never changes
the room or the timer table (the code tracks no pending-offer state, so
"no offer pending" cannot be consulted), and sending it twice is the same
no-op both times; a draw-response with `accept = true`, however, is not
protected by any pending-offer check and finishes a Playing room (see the
counterexample). -/
theorem drawResponse_decline_is_noop (sender : Nat) (room : Room) (sys : TimerSys) :
    (handleDrawResponse sender false (some room) sys).1 = some room ∧
    (handleDrawResponse sender false (some room) sys).2.1 = sys ∧
    handleDrawResponse sender false
        (handleDrawResponse sender false (some room) sys).1
        (handleDrawResponse sender false (some room) sys).2.1
      = handleDrawResponse sender false (some room) sys := by
  have key : (handleDrawResponse sender false (some room) sys).1 = some room ∧
      (handleDrawResponse sender false (some room) sys).2.1 = sys := by
    simp only [handleDrawResponse]
    split
    · exact ⟨rfl, rfl⟩
    · cases hf : room.players.find? (fun p => p.socketId != sender) with
      | none => simp [hf]
      | some offerer => cases hc : offerer.connected <;> simp [hf, hc]
  refine ⟨key.1, key.2, ?_⟩
  rw [key.1, key.2]

/-- Copy of `basePlayingRoom` with a guest (unidentified) player in the white
seat. -/
def guestPlayingRoom : Room := { basePlayingRoom with players := [guestPlayer, bob] }

/-- C4 counterexample.  When the guest in `guestPlayingRoom` disconnects
mid-game, the claim says the room is finalized as an immediate abandonment
with no grace timer; instead the room stays `playing`, a 30-second abandon
deadline timer is armed (id 1 becomes live), and the only emission is the
`opponent-offline` notice — no result is recorded at disconnect time. -/
theorem guest_disconnect_no_immediate_abandon_cx :
    guestPlayer.userId = none ∧
    (handleDisconnect 1 (some guestPlayingRoom) sysOneClock).1.map Room.status
      = some Status.playing ∧
    (handleDisconnect 1 (some guestPlayingRoom) sysOneClock).2.1.liveAbandon = [1] ∧
    (handleDisconnect 1 (some guestPlayingRoom) sysOneClock).2.2
      = [Event.opponentOffline Color.w] := by
  decide

/-- C4 (amended).  A seated guest's disconnect while the room is playing
(with an opponent still seated) arms the same 30-second grace timer as for
identified players ("30s grace period for everyone"); the room stays
playing and `reconnectTimers` is untouched (the guest merely cannot cancel
the deadline, since only identified users are registered there).  The
opponent is credited the win only when the deadline callback fires, which
finishes the game as abandoned and deletes the room. -/
theorem guest_disconnect_same_grace_timer
    (sender : Nat) (room : Room) (sys : TimerSys) (p : Player)
    (hfind : room.players.find? (fun q => q.socketId == sender) = some p)
    (hguest : p.userId = none)
    (hstatus : room.status = Status.playing)
    (hothers : ∃ q ∈ room.players, q.socketId ≠ sender) :
    ∃ r, (handleDisconnect sender (some room) sys).1 = some r ∧
      r.status = Status.playing ∧
      r.reconnectTimers = room.reconnectTimers ∧
      sys.nextId ∈ (handleDisconnect sender (some room) sys).2.1.liveAbandon ∧
      fireAbandonDeadline p.color r
        = (none, [Event.playerDisconnected p.color,
                  Event.record
                    (if p.color = Color.w then GameResult.black else GameResult.white)
                    "abandoned"]) := by
  obtain ⟨q, hq, hqs⟩ := hothers
  have hnall : ¬ ∀ a ∈ room.players,
      (if a.socketId = sender then ({ a with connected := false } : Player) else a).socketId
        = sender := by
    intro hall
    have hx := hall q hq
    rw [if_neg hqs] at hx
    exact hqs hx
  rcases href : room.timerRef with _ | t <;>
  · simp only [handleDisconnect, hfind]
    simp [clearClock, href, hstatus, hguest]
    rw [if_neg hnall]
    exact ⟨_, rfl, rfl, rfl, by simp [TimerSys.armAbandon, TimerSys.clear],
      by simp [fireAbandonDeadline]⟩

/-- Witness for the amended C4 theorem at the counterexample's inputs. -/
theorem guest_disconnect_same_grace_timer_witness :
    ∃ r, (handleDisconnect 1 (some guestPlayingRoom) sysOneClock).1 = some r ∧
      r.status = Status.playing ∧
      r.reconnectTimers = guestPlayingRoom.reconnectTimers ∧
      sysOneClock.nextId ∈ (handleDisconnect 1 (some guestPlayingRoom) sysOneClock).2.1.liveAbandon ∧
      fireAbandonDeadline guestPlayer.color r
        = (none, [Event.playerDisconnected guestPlayer.color,
                  Event.record
                    (if guestPlayer.color = Color.w then GameResult.black else GameResult.white)
                    "abandoned"]) :=
  guest_disconnect_same_grace_timer 1 guestPlayingRoom sysOneClock guestPlayer
    (by decide) (by decide) (by decide) (by decide)

/-- C5 counterexample.  Side A (socket 1) offers a draw: the opponent is
notified and — since the code stores no pending-offer state — the room is
returned unchanged.  Side B (socket 2) then offers while A's offer is
"still pending": processed on the identical room, B's offer is *not*
ignored; it produces a further `draw-offered` notification (to A).  There
is no pending-offer field that could make A's the only live offer. -/
theorem second_draw_offer_not_ignored_cx :
    handleDrawOffer 1 (some basePlayingRoom) sysOneClock
      = (some basePlayingRoom, sysOneClock, [Event.drawOffered 2]) ∧
    handleDrawOffer 2 (some basePlayingRoom) sysOneClock
      = (some basePlayingRoom, sysOneClock, [Event.drawOffered 1]) := by
  decide

/-- C5 (amended).  The code tracks no `pendingDrawOfferFrom` state: a
draw-offer never modifies the room or the timer table, and every offer
from a seated player of a Playing room whose opponent is connected emits a
`draw-offered` notification to the opponent — including a second offer
from the other seat while the first is still outstanding.  No offer is
ever ignored and no idempotence guard exists. -/
theorem drawOffer_stateless_always_notifies
    (sender : Nat) (room : Room) (sys : TimerSys) (p opp : Player)
    (hstatus : room.status = Status.playing)
    (hfind : room.players.find? (fun x => x.socketId == sender) = some p)
    (hopp : room.players.find? (fun x => x.socketId != sender) = some opp)
    (hconn : opp.connected = true) :
    handleDrawOffer sender (some room) sys
      = (some room, sys, [Event.drawOffered opp.socketId]) ∧
    (∀ s2 sys2, (handleDrawOffer s2 (some room) sys2).1 = some room ∧
      (handleDrawOffer s2 (some room) sys2).2.1 = sys2) := by
  constructor
  · simp [handleDrawOffer, hstatus, hfind, hopp, hconn]
  · intro s2 sys2
    simp only [handleDrawOffer]
    split
    · exact ⟨rfl, rfl⟩
    · cases h1 : room.players.find? (fun x => x.socketId == s2) with
      | none => simp [h1]
      | some p2 =>
        cases h2 : room.players.find? (fun x => x.socketId != s2) with
        | none => simp [h1, h2]
        | some o2 => cases hc : o2.connected <;> simp [h1, h2, hc]

/-- Witness for the amended C5 theorem at the counterexample's inputs. -/
theorem drawOffer_stateless_always_notifies_witness :
    handleDrawOffer 1 (some basePlayingRoom) sysOneClock
      = (some basePlayingRoom, sysOneClock, [Event.drawOffered bob.socketId]) ∧
    (∀ s2 sys2, (handleDrawOffer s2 (some basePlayingRoom) sys2).1 = some basePlayingRoom ∧
      (handleDrawOffer s2 (some basePlayingRoom) sys2).2.1 = sys2) :=
  drawOffer_stateless_always_notifies 1 basePlayingRoom sysOneClock alice bob
    (by decide) (by decide) (by decide) (by decide)

/-- A room that already reached `finished`. -/
def finishedRoom : Room :=
  { basePlayingRoom with
    status := Status.finished
    game := { turn := Color.b, fen := "endfen", history := ["e4", "e5"] } }

/-- C6.  A finished room is immutable: whatever message or timer firing
is processed next, if the room still exists afterwards its status is still
`finished` and its move log is unchanged; no result/reason is ever
recorded again (`recordGame` is not called); and in particular the clock
timeout callback firing against a finished room is a complete no-op
(it re-checks `status` before mutating). -/
theorem finished_room_immutable
    (engine : Engine) (now : Int) (msg : Msg) (room : Room) (sys : TimerSys)
    (h : room.status = Status.finished) :
    (∀ r, (handleMsg engine now msg room sys).1 = some r →
        r.status = Status.finished ∧ r.game.history = room.game.history) ∧
    (∀ res reason, Event.record res reason ∉ (handleMsg engine now msg room sys).2.2) ∧
    (∀ c, handleMsg engine now (Msg.clockTimeoutFire c) room sys = (some room, sys, [])) := by
  have hshape :
      handleMsg engine now msg room sys
          = (some room, sys, [Event.invalidMove "Game is not active."]) ∨
      handleMsg engine now msg room sys = (some room, sys, []) ∨
      handleMsg engine now msg room sys = (none, (clearClock room sys).2, []) := by
    cases msg with
    | makeMove s mv => left; simp [handleMsg, handleMakeMove, h]
    | resign s => right; left; simp [handleMsg, handleResign, h]
    | drawOffer s => right; left; simp [handleMsg, handleDrawOffer, h]
    | drawResponse s a => right; left; simp [handleMsg, handleDrawResponse, h]
    | chatMessage s t => right; left; simp [handleMsg, handleChatMessage, h]
    | leaveRoom s => right; left; simp [handleMsg, handleLeaveRoom, h]
    | disconnect s =>
        rcases hf : room.players.find? (fun x => x.socketId == s) with _ | d
        · right; left; simp [handleMsg, handleDisconnect, hf]
        · right; right; simp [handleMsg, handleDisconnect, hf, h]
    | clockTimeoutFire c => right; left; simp [handleMsg, fireClockTimeout, h]
    | abandonDeadlineFire c => right; left; simp [handleMsg, fireAbandonDeadline, h]
  refine ⟨?_, ?_, ?_⟩
  · intro r hr
    rcases hshape with hs | hs | hs <;> rw [hs] at hr <;> simp at hr
    · rw [← hr]; exact ⟨h, rfl⟩
    · rw [← hr]; exact ⟨h, rfl⟩
  · intro res reason
    rcases hshape with hs | hs | hs <;> rw [hs] <;> simp
  · intro c
    simp [handleMsg, fireClockTimeout, h]

/-- Witness for C6: processing a resign against a concrete finished room. -/
theorem finished_room_immutable_witness :
    (∀ r, (handleMsg testEngine 0 (Msg.resign 1) finishedRoom sysEmpty).1 = some r →
        r.status = Status.finished ∧ r.game.history = finishedRoom.game.history) ∧
    (∀ res reason,
      Event.record res reason ∉ (handleMsg testEngine 0 (Msg.resign 1) finishedRoom sysEmpty).2.2) ∧
    (∀ c, handleMsg testEngine 0 (Msg.clockTimeoutFire c) finishedRoom sysEmpty
        = (some finishedRoom, sysEmpty, [])) :=
  finished_room_immutable testEngine 0 (Msg.resign 1) finishedRoom sysEmpty (by decide)

/-- The clock-timer operations the room lifecycle performs: `arm` is a call
to `startClock` (which always cancels the previous timer first), `cancel`
a call to `clearClock`. -/
inductive ClockOp where
  | arm
  | cancel
  deriving DecidableEq, Repr

/-- Apply a sequence of clock operations to a room and its timer table. -/
def applyClockOps (ops : List ClockOp) (rs : Room × TimerSys) (now : Int) :
    Room × TimerSys :=
  match ops with
  | [] => rs
  | op :: rest =>
    let rs1 := match op with
      | ClockOp.arm => startClock rs.1 rs.2 now
      | ClockOp.cancel => clearClock rs.1 rs.2
    applyClockOps rest rs1 now

/-- Clock-timer invariant: at most one clock timer is live, and any live one
is the one `room.timerRef` points to. -/
def ClockInv (room : Room) (sys : TimerSys) : Prop :=
  sys.liveClock.length ≤ 1 ∧ ∀ t ∈ sys.liveClock, room.timerRef = some t

theorem cancelRef_liveClock (room : Room) (sys : TimerSys) (hinv : ClockInv room sys) :
    (cancelRef room sys).liveClock = [] := by
  obtain ⟨-, h2⟩ := hinv
  rcases href : room.timerRef with _ | t
  · simp only [cancelRef, href]
    apply List.eq_nil_iff_forall_not_mem.mpr
    intro x hx
    have hr := h2 x hx
    rw [href] at hr
    cases hr
  · simp only [cancelRef, href]
    apply List.eq_nil_iff_forall_not_mem.mpr
    intro x hx
    simp only [TimerSys.clear, List.mem_filter, decide_eq_true_eq] at hx
    obtain ⟨hx1, hx2⟩ := hx
    have hr := h2 x hx1
    rw [href] at hr
    exact hx2 (Option.some.inj hr).symm

@[simp] theorem cancelRef_nextId (room : Room) (sys : TimerSys) :
    (cancelRef room sys).nextId = sys.nextId := by
  unfold cancelRef
  cases room.timerRef <;> rfl

theorem clearClock_snd_eq_cancelRef (room : Room) (sys : TimerSys) :
    (clearClock room sys).2 = cancelRef room sys := by
  unfold clearClock cancelRef
  cases room.timerRef <;> rfl

theorem startClock_spec (room : Room) (sys : TimerSys) (now : Int)
    (hinv : ClockInv room sys) :
    ClockInv (startClock room sys now).1 (startClock room sys now).2 ∧
    (room.timeControl ≠ none → room.status = Status.playing →
      (startClock room sys now).2.liveClock = [sys.nextId] ∧
      (startClock room sys now).1.timerRef = some sys.nextId) := by
  have hnil := cancelRef_liveClock room sys hinv
  by_cases hel : room.timeControl = none ∨ room.status ≠ Status.playing
  · constructor
    · simp only [startClock]
      rw [if_pos hel]
      refine ⟨by rw [hnil]; simp, ?_⟩
      intro t ht
      rw [hnil] at ht
      cases ht
    · intro h1 h2
      rcases hel with hel | hel
      · exact absurd hel h1
      · exact absurd h2 hel
  · constructor
    · simp only [startClock]
      rw [if_neg hel]
      simp only [TimerSys.armClock]
      refine ⟨by rw [hnil]; simp, ?_⟩
      intro t ht
      rw [hnil] at ht
      simp only [List.mem_singleton] at ht
      simp [ht]
    · intro _ _
      simp only [startClock]
      rw [if_neg hel]
      simp only [TimerSys.armClock]
      rw [hnil, cancelRef_nextId]
      exact ⟨rfl, rfl⟩

theorem clearClock_inv (room : Room) (sys : TimerSys) (hinv : ClockInv room sys) :
    ClockInv (clearClock room sys).1 (clearClock room sys).2 := by
  have hnil : (clearClock room sys).2.liveClock = [] := by
    rw [clearClock_snd_eq_cancelRef]
    exact cancelRef_liveClock room sys hinv
  constructor
  · rw [hnil]
    simp
  · intro t ht
    rw [hnil] at ht
    cases ht

/-- C7.  Starting from the clock-timer invariant (at most one live clock
timer, pointed to by `timerRef`), any sequence of `startClock`/`clearClock`
operations preserves it — so at most one clock timer is ever pending for
the room — and arming N ≥ 1 times in succession (each arm first cancelling
the previous timer) leaves exactly one live timer, never N. -/
theorem clock_rearm_single_live_timer
    (room : Room) (sys : TimerSys) (now : Int)
    (hinv : ClockInv room sys) :
    (∀ ops : List ClockOp,
       ClockInv (applyClockOps ops (room, sys) now).1 (applyClockOps ops (room, sys) now).2 ∧
       (applyClockOps ops (room, sys) now).2.liveClock.length ≤ 1) ∧
    (room.timeControl ≠ none → room.status = Status.playing →
       ∀ n, 1 ≤ n →
         (applyClockOps (List.replicate n ClockOp.arm) (room, sys) now).2.liveClock.length
           = 1) := by
  have part1 : ∀ (ops : List ClockOp) (r : Room) (s : TimerSys), ClockInv r s →
      ClockInv (applyClockOps ops (r, s) now).1 (applyClockOps ops (r, s) now).2 := by
    intro ops
    induction ops with
    | nil => intro r s h; simpa [applyClockOps] using h
    | cons op rest ih =>
        intro r s h
        cases op with
        | arm =>
            have h1 := (startClock_spec r s now h).1
            have := ih (startClock r s now).1 (startClock r s now).2 h1
            simpa [applyClockOps] using this
        | cancel =>
            have h1 := clearClock_inv r s h
            have := ih (clearClock r s).1 (clearClock r s).2 h1
            simpa [applyClockOps] using this
  have part2 : ∀ (n : Nat) (r : Room) (s : TimerSys), ClockInv r s →
      r.timeControl ≠ none → r.status = Status.playing → 1 ≤ n →
      (applyClockOps (List.replicate n ClockOp.arm) (r, s) now).2.liveClock.length = 1 := by
    intro n
    induction n with
    | zero => intro r s _ _ _ hn; exact absurd hn (by omega)
    | succ m ih =>
        intro r s h htc hst _
        rcases Nat.eq_zero_or_pos m with hm | hm
        · subst hm
          have h2 := (startClock_spec r s now h).2 htc hst
          simp [applyClockOps, List.replicate, h2.1]
        · have h1 := (startClock_spec r s now h).1
          have htc' : (startClock r s now).1.timeControl ≠ none := by
            rw [startClock_fst_timeControl]
            exact htc
          have hst' : (startClock r s now).1.status = Status.playing := by
            rw [startClock_fst_status]
            exact hst
          have := ih (startClock r s now).1 (startClock r s now).2 h1 htc' hst' hm
          simpa [List.replicate, applyClockOps] using this
  exact ⟨fun ops => ⟨part1 ops room sys hinv, (part1 ops room sys hinv).1⟩,
    fun htc hst n hn => part2 n room sys hinv htc hst hn⟩

/-- Witness for C7 on a concrete playing room whose single armed timer
satisfies the invariant. -/
theorem clock_rearm_single_live_timer_witness :
    (∀ ops : List ClockOp,
       ClockInv (applyClockOps ops (basePlayingRoom, sysOneClock) 0).1
         (applyClockOps ops (basePlayingRoom, sysOneClock) 0).2 ∧
       (applyClockOps ops (basePlayingRoom, sysOneClock) 0).2.liveClock.length ≤ 1) ∧
    (basePlayingRoom.timeControl ≠ none → basePlayingRoom.status = Status.playing →
       ∀ n, 1 ≤ n →
         (applyClockOps (List.replicate n ClockOp.arm) (basePlayingRoom, sysOneClock) 0).2.liveClock.length
           = 1) :=
  clock_rearm_single_live_timer basePlayingRoom sysOneClock 0 ⟨by decide, by decide⟩

def aliceUser : User := { id := 10, username := "alice" }

def bobUser : User := { id := 20, username := "bob" }

/-- A freshly created waiting room (creator seated as white, 60 s limit). -/
def waitingRoom : Room := handleCreateRoom (some aliceUser) 0 1 "SALA-AAA" (some 60)

/-- C8.  A join intent fills the empty seat only while the room is
`waiting`: the joiner is seated with colour black (the opposite side of the
creator, who is always white), the room transitions to `playing`, and when
a time limit is configured a fresh clock timer is armed (`timerRef` set,
the timer live, `lastMoveTimestamp` stamped).  A join against a
non-`waiting` room emits the join-error and leaves room and timers
unchanged. -/
theorem join_room_spec
    (user : Option User) (now : Int) (sender : Nat) (room : Room) (sys : TimerSys) :
    (room.status ≠ Status.waiting →
       handleJoinRoom user now sender (some room) sys
         = (some room, sys, [Event.joinError "Room is full or game already started."])) ∧
    (room.status = Status.waiting →
       ∃ r, (handleJoinRoom user now sender (some room) sys).1 = some r ∧
         r.status = Status.playing ∧
         r.players = room.players ++ [joinerOf user sender] ∧
         (joinerOf user sender).color = Color.b ∧
         (∀ p ∈ room.players, p.color = Color.w →
            (joinerOf user sender).color = p.color.other) ∧
         (room.timeControl ≠ none →
            r.timerRef = some sys.nextId ∧
            sys.nextId ∈ (handleJoinRoom user now sender (some room) sys).2.1.liveClock ∧
            r.lastMoveTimestamp = now)) := by
  constructor
  · intro h
    simp [handleJoinRoom, h]
  · intro h
    simp only [handleJoinRoom, h]
    simp only [ne_eq, not_true_eq_false, if_false]
    refine ⟨_, rfl, ?_, ?_, rfl, ?_, ?_⟩
    · rw [startClock_fst_status]
    · rw [startClock_fst_players]
    · intro p _ hp
      rw [hp]
      rfl
    · intro htc
      simp only [startClock]
      rw [if_neg]
      · simp only [TimerSys.armClock]
        exact ⟨by rw [cancelRef_nextId], by rw [cancelRef_nextId]; exact List.mem_cons_self _ _,
          trivial⟩
      · intro hc
        rcases hc with hc | hc
        · exact htc hc
        · exact hc rfl

/-- Witness for C8: Bob joins Alice's freshly created timed waiting room. -/
theorem join_room_spec_witness :
    ∃ r, (handleJoinRoom (some bobUser) 5 2 (some waitingRoom) sysEmpty).1 = some r ∧
      r.status = Status.playing ∧
      r.players = waitingRoom.players ++ [joinerOf (some bobUser) 2] ∧
      (joinerOf (some bobUser) 2).color = Color.b ∧
      (∀ p ∈ waitingRoom.players, p.color = Color.w →
        (joinerOf (some bobUser) 2).color = p.color.other) ∧
      (waitingRoom.timeControl ≠ none →
        r.timerRef = some sysEmpty.nextId ∧
        sysEmpty.nextId ∈ (handleJoinRoom (some bobUser) 5 2 (some waitingRoom) sysEmpty).2.1.liveClock ∧
        r.lastMoveTimestamp = 5) :=
  (join_room_spec (some bobUser) 5 2 waitingRoom sysEmpty).2 (by decide)

theorem generateRoomIdFuel_all_taken (stream : Nat → String) (taken : List String)
    (hall : ∀ j, taken.contains (stream j) = true) :
    ∀ fuel k, generateRoomIdFuel fuel stream taken k = none := by
  intro fuel
  induction fuel with
  | zero => intro k; rfl
  | succ f ih =>
      intro k
      simp only [generateRoomIdFuel]
      rw [if_pos (hall k)]
      exact ih (k + 1)

/-- C9 counterexample.  There is no global attempt bound for room-id
generation: whenever the randomness keeps producing ids that are taken,
the `do…while` loop just keeps retrying, and if every generated id is
taken it never terminates — the code has no `AllocationExhausted` (or any
other) failure outcome.  Concretely, with `rooms` owning `"SALA-AAA"` and
a generator stuck on that id, no amount of fuel produces an outcome. -/
theorem roomId_generation_unbounded_cx : ¬ boundedIdGeneration := by
  rintro ⟨B, hB⟩
  have h := hB (fun _ => "SALA-AAA") ["SALA-AAA"]
  rw [generateRoomIdFuel_all_taken (fun _ => "SALA-AAA") ["SALA-AAA"]
    (fun _ => rfl) B 0] at h
  cases h

theorem generateRoomIdFuel_first_free (stream : Nat → String) (taken : List String) :
    ∀ fuel j k, j < fuel →
      (∀ i, i < j → taken.contains (stream (k + i)) = true) →
      taken.contains (stream (k + j)) = false →
      generateRoomIdFuel fuel stream taken k = some (stream (k + j)) := by
  intro fuel
  induction fuel with
  | zero => intro j k hj; exact absurd hj (Nat.not_lt_zero j)
  | succ f ih =>
      intro j k hj hbef hfree
      cases j with
      | zero =>
          rw [Nat.add_zero] at hfree
          simp only [generateRoomIdFuel]
          rw [if_neg (by rw [hfree]; exact Bool.false_ne_true)]
          simp
      | succ j' =>
          have h0 : taken.contains (stream k) = true := by
            have := hbef 0 (Nat.succ_pos j')
            simpa using this
          have hbef' : ∀ i, i < j' → taken.contains (stream ((k + 1) + i)) = true := by
            intro i hi
            have hx := hbef (i + 1) (by omega)
            have harith : k + (i + 1) = (k + 1) + i := by omega
            rwa [harith] at hx
          have hfree' : taken.contains (stream ((k + 1) + j')) = false := by
            have harith : k + (j' + 1) = (k + 1) + j' := by omega
            rwa [harith] at hfree
          have hrec := ih j' (k + 1) (by omega) hbef' hfree'
          have harith : (k + 1) + j' = k + (j' + 1) := by omega
          rw [harith] at hrec
          simp only [generateRoomIdFuel]
          rw [if_pos h0]
          exact hrec

/-- C9 (amended).  `generateRoomId` retries until the generated id is
not a key of the live `rooms` map and then returns it: it terminates
exactly when the generator stream eventually yields a free id (returning
the first such id), it never signals `AllocationExhausted` — no failure
path exists — and when every generated id is taken it retries forever
(see the counterexample). -/
theorem generateRoomId_finds_first_free
    (stream : Nat → String) (taken : List String) (fuel j : Nat)
    (hj : j < fuel)
    (hbefore : ∀ i, i < j → taken.contains (stream i) = true)
    (hfree : taken.contains (stream j) = false) :
    generateRoomIdFuel fuel stream taken 0 = some (stream j) ∧
    taken.contains (stream j) = false := by
  have hb : ∀ i, i < j → taken.contains (stream (0 + i)) = true := by
    intro i hi
    rw [Nat.zero_add]
    exact hbefore i hi
  have hf : taken.contains (stream (0 + j)) = false := by
    rw [Nat.zero_add]
    exact hfree
  have h := generateRoomIdFuel_first_free stream taken fuel j 0 hj hb hf
  rw [Nat.zero_add] at h
  exact ⟨h, hfree⟩

/-- A concrete generator stream: collides with the taken id once, then
produces a fresh id. -/
def testStream : Nat → String := fun k => if k = 0 then "SALA-AAA" else "SALA-BBB"

/-- Witness for the amended C9 theorem. -/
theorem generateRoomId_finds_first_free_witness :
    generateRoomIdFuel 3 testStream ["SALA-AAA"] 0 = some (testStream 1) ∧
    (["SALA-AAA"] : List String).contains (testStream 1) = false :=
  generateRoomId_finds_first_free testStream ["SALA-AAA"] 3 1 (by decide)
    (fun i hi => by
      have hi0 : i = 0 := by omega
      subst hi0
      decide)
    (by decide)

/-- C10.  A draw-response with `accept = true` against an existing
Playing room finishes it as a draw by agreement based solely on the room
id and status: the handler result is identical for every sending
connection — seated or not (`sender` is arbitrary and unconstrained), so
any connection can end any Playing game as a draw. -/
theorem drawResponse_accept_no_seat_check
    (sender : Nat) (room : Room) (sys : TimerSys)
    (hstatus : room.status = Status.playing) :
    (∃ r, (handleDrawResponse sender true (some room) sys).1 = some r ∧
       r.status = Status.finished) ∧
    Event.record GameResult.draw "agreement"
      ∈ (handleDrawResponse sender true (some room) sys).2.2 ∧
    (∀ sender2 : Nat,
      handleDrawResponse sender2 true (some room) sys
        = handleDrawResponse sender true (some room) sys) := by
  have hbody : ∀ s : Nat, handleDrawResponse s true (some room) sys
      = (some { (clearClock room sys).1 with status := Status.finished },
         (clearClock room sys).2,
         [Event.drawAccepted, Event.record GameResult.draw "agreement"]) := by
    intro s
    simp [handleDrawResponse, hstatus]
  refine ⟨⟨_, by rw [hbody], rfl⟩, ?_, ?_⟩
  · rw [hbody]
    simp
  · intro s2
    rw [hbody, hbody]

/-- Witness for C10: socket 999 is seated in no room at all, yet its
draw-acceptance finishes `basePlayingRoom`. -/
theorem drawResponse_accept_no_seat_check_witness :
    (∃ r, (handleDrawResponse 999 true (some basePlayingRoom) sysOneClock).1 = some r ∧
       r.status = Status.finished) ∧
    Event.record GameResult.draw "agreement"
      ∈ (handleDrawResponse 999 true (some basePlayingRoom) sysOneClock).2.2 ∧
    (∀ sender2 : Nat,
      handleDrawResponse sender2 true (some basePlayingRoom) sysOneClock
        = handleDrawResponse 999 true (some basePlayingRoom) sysOneClock) :=
  drawResponse_accept_no_seat_check 999 basePlayingRoom sysOneClock (by decide)

end ChessServer
